import Mathlib

/-!
Shallow embedding of the offline word-capture and enrichment pipeline of the
audio-to-text project (files `offline_manager.py`, `transcriber.py`,
`translation_service.py`, `app.py`).  Pure data transformations are embedded
as executable Lean functions; file I/O and network I/O are modelled by
explicit outcome types; Python exceptions from collaborators are modelled by
`Except`.
-/

/-! ## String helpers (Python `lower`, `strip`, `in`, `split`)

All string processing is done on `List Char` with structural recursion so
every definition reduces in the kernel.  `Char.toLower` matches Python's
`str.lower` on the ASCII and Devanagari data handled by this program. -/

/-- Python `pat in text` on character lists: does `pat` occur as a
contiguous substring of `text`?  `headMatch pat text` is `pat` being a
prefix of `text`. -/
def headMatch : List Char → List Char → Bool
  | [], _ => true
  | _ :: _, [] => false
  | a :: as, b :: bs => a == b && headMatch as bs

/-- Substring occurrence: Python's `pat in text`. -/
def containsSub (pat : List Char) : List Char → Bool
  | [] => headMatch pat []
  | c :: rest => headMatch pat (c :: rest) || containsSub pat rest

/-- Lower-case a string character-wise (Python `str.lower` restricted to the
ASCII range; identity on Devanagari, as in CPython for those code points). -/
def lowerStr (s : String) : String := ⟨s.data.map Char.toLower⟩

/-- Python `str.strip()` (no argument): drop leading and trailing
whitespace. -/
def trimChars (l : List Char) : List Char :=
  ((l.dropWhile Char.isWhitespace).reverse.dropWhile Char.isWhitespace).reverse

/-- Python `str.strip(chars)`: drop leading and trailing characters that
belong to `cs`. -/
def stripSet (cs : List Char) (l : List Char) : List Char :=
  ((l.dropWhile (cs.contains ·)).reverse.dropWhile (cs.contains ·)).reverse

/-- The punctuation set of `transcriber.extract_and_save_words`:
`.,!?;:"'()[]` and the two braces (34 = double quote, 39 = apostrophe,
123/125 = braces). -/
def stripPunct : List Char :=
  ['.', ',', '!', '?', ';', ':', Char.ofNat 34, Char.ofNat 39,
   '(', ')', '[', ']', Char.ofNat 123, Char.ofNat 125]

/-- Python `str.split()` with no separator: split on runs of whitespace,
discarding empty pieces.  `acc` is the current (reversed) in-progress word. -/
def splitWsAux (acc : List Char) : List Char → List (List Char)
  | [] => if acc.isEmpty then [] else [acc.reverse]
  | c :: rest =>
    if Char.isWhitespace c then
      if acc.isEmpty then splitWsAux [] rest
      else acc.reverse :: splitWsAux [] rest
    else splitWsAux (c :: acc) rest

def splitWs (s : String) : List (List Char) := splitWsAux [] s.data

/-! ## Word extraction (`transcriber.extract_and_save_words`) -/

/-- The `common_words` stop-word table of `extract_and_save_words`, keyed by
language code. -/
def commonWords : List (String × List String) :=
  [("en", ["the", "be", "to", "of", "and", "a", "in", "that", "have", "i",
           "it", "for", "not", "on", "with", "as", "you", "do", "at"]),
   ("es", ["el", "la", "de", "que", "y", "a", "en", "un", "ser", "se", "no",
           "haber", "por", "con", "su", "para", "como", "estar"]),
   ("hi", ["और", "है", "से", "का", "एक", "में", "की", "को", "यह", "वह",
           "न", "कर", "ने", "पर", "भी", "तो", "हो", "था", "ही"])]

/-- Is the cleaned word in any configured language's stop-word set
(the loop over `common_words.items()` in the source)? -/
def isCommonWord (w : String) : Bool :=
  commonWords.any (fun p => p.2.contains w)

/-- Clean one raw token: strip leading/trailing punctuation, lower-case
(`word.strip('.,!?;:"\x27()[]\x7b\x7d').lower()`). -/
def cleanToken (w : List Char) : String :=
  ⟨(stripSet stripPunct w).map Char.toLower⟩

/-- The candidate words `extract_and_save_words text lang` would save:
split on whitespace, clean each token, keep it when it is longer than 2
characters, purely alphabetic, and not a stop word of any language.  The
`lang` argument of the source only tags the saved entry; it does not affect
which candidates survive, so it is not a parameter here.  Whether a
candidate is actually persisted further depends on the online probe, which
claim C5 does not touch. -/
def extractCandidates (text : String) : List String :=
  ((splitWs text).map cleanToken).filter
    (fun w => decide (2 < w.length) && w.data.all Char.isAlpha && !isCommonWord w)

/-! ## Data model

`Entry` models one JSON object of `unvalidated.json` / `validated.json`
(the dict built in `save_unvalidated_word` and extended in
`process_unvalidated`).  `TransResult` models the dict returned by
`GoogletransTranslationService.translate_to_all`.  `DbRecord` models one row
of the `translations` table (the fields the claims touch). -/

structure TransResult where
  original : String
  detected_lang : String
  en : String
  es : String
  hi : String
  deriving DecidableEq, Repr

structure Entry where
  word : String
  language : String
  context : String
  timestamp : String
  is_offline : Bool
  status : String
  translations : Option TransResult := none
  validated_at : String := ""
  deriving DecidableEq, Repr

structure DbRecord where
  word : String
  language : String
  en : String
  es : String
  hi : String
  context : String
  validated : Bool
  deriving DecidableEq, Repr

/-- The whole persistent state the enrichment pass touches:
`unvalidated.json`, `validated.json` and the SQLite `translations` table. -/
structure SyncState where
  pending : List Entry
  validatedFile : List Entry
  db : List DbRecord
  deriving DecidableEq, Repr

/-! ## Pending store (`OfflineManager.save_unvalidated_word`) -/

/-- The duplicate test of `save_unvalidated_word`: some entry has this word,
this language and status `"pending"`. -/
def hasPendingEntry (word language : String) (data : List Entry) : Bool :=
  data.any (fun e => e.word == word && e.language == language && e.status == "pending")

/-- `OfflineManager.save_unvalidated_word`: read the store, return it
unchanged (with `True`) when a pending duplicate exists, otherwise append a
fresh pending entry and return `True`.  The `False` return of the source is
reached only from its `except` clause (an I/O failure), which the pure model
has no counterpart for. -/
def save_unvalidated_word (word language context ts : String) (is_off : Bool)
    (data : List Entry) : List Entry × Bool :=
  if hasPendingEntry word language data then (data, true)
  else
    (data ++ [{ word := word, language := language, context := context,
                timestamp := ts, is_offline := is_off, status := "pending" }],
     true)

/-- `OfflineManager.get_unvalidated_words`: only entries with status
`"pending"`. -/
def get_unvalidated_words (data : List Entry) : List Entry :=
  data.filter (fun e => e.status == "pending")

/-! ## Validation gate and database upsert
(`OfflineManager._has_valid_translations`, `_save_to_database`) -/

/-- The `error_indicators` list of `_has_valid_translations`. -/
def errorIndicators : List String :=
  ["[offline]", "[translation failed]", "translation failed",
   "failed to translate", "error", "none"]

/-- The per-language test of `_has_valid_translations`: the text is neither
falsy nor whitespace-only, and its lower-casing contains no error
indicator. -/
def validText (t : String) : Bool :=
  !(trimChars t.data).isEmpty &&
  !(errorIndicators.any (fun m => containsSub m.data (lowerStr t).data))

/-- `OfflineManager._has_valid_translations`: `none` models a falsy /
non-dict argument; otherwise the `en`, `es`, `hi` fields must each pass
`validText` (the source loops over `['en', 'es', 'hi']` and returns `False`
at the first failure, which equals this conjunction). -/
def has_valid_translations : Option TransResult → Bool
  | none => false
  | some t => validText t.en && validText t.es && validText t.hi

/-- Does a row for this (word, language) pair exist (`SELECT id FROM
translations WHERE original_word = ? AND detected_language = ?`)? -/
def dbHasRow (word language : String) (db : List DbRecord) : Bool :=
  db.any (fun r => r.word == word && r.language == language)

/-- The `UPDATE ... WHERE id = existing[0]` branch: overwrite the first row
matching the pair (SQLite `fetchone` returns the first match). -/
def updateFirstRow (word language : String) (tr : TransResult) (context : String) :
    List DbRecord → List DbRecord
  | [] => []
  | r :: rest =>
    if r.word == word && r.language == language then
      { r with en := tr.en, es := tr.es, hi := tr.hi,
               context := context, validated := true } :: rest
    else r :: updateFirstRow word language tr context rest

/-- `OfflineManager._save_to_database`: reject (store unchanged, `false`)
when the validation gate fails, otherwise upsert the row keyed by
(word, language) and return `true`.  The meaning-service columns (synonyms,
part of speech, ...) carry no content the claims mention and are omitted
from `DbRecord`. -/
def save_to_database (word language : String) (tr : Option TransResult)
    (context : String) (db : List DbRecord) : List DbRecord × Bool :=
  if !has_valid_translations tr then (db, false)
  else
    match tr with
    | none => (db, false)
    | some t =>
      if dbHasRow word language db then
        (updateFirstRow word language t context db, true)
      else
        (db ++ [{ word := word, language := language, en := t.en, es := t.es,
                  hi := t.hi, context := context, validated := true }], true)

/-! ## Enrichment pass (`OfflineManager.process_unvalidated`)

The translation collaborator is a function `String → Except String
TransResult`; `Except.error` models a Python exception escaping
`translate_to_all`.  `calls` records each word actually handed to the
collaborator, so "no translation call is made" is statable. -/

/-- Accumulated outcome of the `for entry in unvalidated` loop. -/
structure RunAccum where
  processed : List Entry
  remaining : List Entry
  calls : List String
  db : List DbRecord
  deriving DecidableEq, Repr

/-- The entry loop of `process_unvalidated`: an empty word is skipped (only
an error string is recorded — neither requeued nor translated); otherwise
the collaborator is called; on exception the entry is kept in `remaining`
for retry; on success `_save_to_database` runs (its Boolean result is
discarded, exactly as in the source) and the entry is marked
`"validated"`. -/
def runEntries (translate : String → Except String TransResult) (now : String)
    (db : List DbRecord) : List Entry → RunAccum
  | [] => { processed := [], remaining := [], calls := [], db := db }
  | e :: rest =>
    if e.word == "" then runEntries translate now db rest
    else
      match translate e.word with
      | .error _ =>
        let acc := runEntries translate now db rest
        { acc with remaining := e :: acc.remaining, calls := e.word :: acc.calls }
      | .ok tr =>
        let db1 := (save_to_database e.word e.language (some tr) e.context db).1
        let acc := runEntries translate now db1 rest
        { acc with
            processed := { e with translations := some tr,
                                  validated_at := now,
                                  status := "validated" } :: acc.processed,
            calls := e.word :: acc.calls }

/-- Result of one enrichment pass: the new persistent state, the count the
pass returns, and the collaborator call log. -/
structure PassResult where
  state : SyncState
  count : Nat
  calls : List String
  deriving DecidableEq, Repr

/-- `OfflineManager.process_unvalidated`: read the pending entries; if none,
return 0 touching nothing; otherwise run the loop, append the processed
entries to `validated.json`, write back only the unprocessed entries, and
return how many were processed. -/
def process_unvalidated (translate : String → Except String TransResult)
    (now : String) (st : SyncState) : PassResult :=
  let unvalidated := get_unvalidated_words st.pending
  if unvalidated.isEmpty then { state := st, count := 0, calls := [] }
  else
    let acc := runEntries translate now st.db unvalidated
    { state := { pending := acc.remaining,
                 validatedFile := st.validatedFile ++ acc.processed,
                 db := acc.db },
      count := acc.processed.length,
      calls := acc.calls }

/-! ## Translation service (`GoogletransTranslationService.translate_to_all`)

`detect` models `detect_language` and `transOne` models `translate_text`
(returning `Except.error` when the underlying googletrans call raises out of
the inner `try`).  The returned `List String` logs every collaborator
invocation ("detect" or the target language code) so "no collaborator is
invoked" is statable. -/

def translate_to_all (detect : String → String)
    (transOne : String → String → String → Except String String)
    (text : String) : TransResult × List String :=
  if text == "" then
    ({ original := "", detected_lang := "unknown", en := "", es := "", hi := "" }, [])
  else if (trimChars text.data).length < 2 then
    let d := detect text
    ({ original := text, detected_lang := d,
       en := if d == "en" then text else "",
       es := if d == "es" then text else "",
       hi := if d == "hi" then text else "" }, ["detect"])
  else
    let d := detect text
    let one := fun (lang : String) =>
      if lang == d then (text, ([] : List String))
      else
        match transOne text lang d with
        | .ok s => (s, [lang])
        | .error _ => ("", [lang])
    let (en, cEn) := one "en"
    let (es, cEs) := one "es"
    let (hi, cHi) := one "hi"
    ({ original := text, detected_lang := d, en := en, es := es, hi := hi },
     "detect" :: (cEn ++ cEs ++ cHi))

/-! ## Connectivity probe (`OfflineManager.check_internet`,
`transcriber.is_online`)

`socket.create_connection` either succeeds or raises an `OSError` —
connection errors and `socket.timeout` are both `OSError` subclasses — and
the probe catches exactly `OSError`. -/

inductive ConnOutcome where
  | ok
  | connErr (msg : String)
  | timedOut
  deriving DecidableEq, Repr

/-- `OfflineManager.check_internet`: `True` on a successful connection,
`False` on any `OSError` (connection error or timeout); total by
construction, so no exception reaches the caller. -/
def check_internet : ConnOutcome → Bool
  | .ok => true
  | .connErr _ => false
  | .timedOut => false

/-- `transcriber.is_online`: character-for-character the same probe. -/
def is_online : ConnOutcome → Bool
  | .ok => true
  | .connErr _ => false
  | .timedOut => false

/-! ## Persistent-store reading (`OfflineManager._read_json_file`) -/

/-- A JSON value, as `json.load` would produce it. -/
inductive Json where
  | null
  | bool (b : Bool)
  | num (n : Int)
  | str (s : String)
  | arr (xs : List Json)
  | obj (fields : List (String × Json))

/-- What opening and parsing the persisted file can come to: the file is
missing, reading it raises (the generic `except Exception` arm), parsing
raises `json.JSONDecodeError`, or a JSON value is produced. -/
inductive FileReadOutcome where
  | missing
  | unreadable (msg : String)
  | parseFailed (msg : String)
  | parsed (j : Json)

/-- `OfflineManager._read_json_file`: every failure — missing file, read
error, invalid JSON, or a parsed value that is not a list — collapses to the
empty collection; only a parsed list is returned as-is.  Total by
construction: no outcome propagates an exception. -/
def read_json_file : FileReadOutcome → List Json
  | .missing => []
  | .unreadable _ => []
  | .parseFailed _ => []
  | .parsed (Json.arr xs) => xs
  | .parsed _ => []

/-! ## Background sync loop (`app.BackgroundSyncService._sync_loop`)

One cycle: probe connectivity (outside any lock); when online run the
pipeline inside `try`, catching any exception; when offline skip.  A
schedule is a list of cycles, each given by the probe's answer and the
pipeline's behaviour that cycle; running the schedule to its end models the
loop never being terminated by a cycle's exception. -/

inductive CycleEvent where
  | skippedOffline
  | ran (result : Except String Nat)
  deriving Repr

/-- One iteration of the `while self.running` body. -/
def syncCycle (probe : Bool) (pipeline : SyncState → Except String (SyncState × Nat))
    (st : SyncState) : SyncState × CycleEvent :=
  if probe then
    match pipeline st with
    | .ok (st2, n) => (st2, .ran (.ok n))
    | .error e => (st, .ran (.error e))
  else (st, .skippedOffline)

/-- Run the loop over a finite schedule of cycles, producing the final state
and one event per cycle. -/
def syncLoop (cycles : List (Bool × (SyncState → Except String (SyncState × Nat))))
    (st : SyncState) : SyncState × List CycleEvent :=
  match cycles with
  | [] => (st, [])
  | (probe, pipe) :: rest =>
    let s1 := syncCycle probe pipe st
    let s2 := syncLoop rest s1.1
    (s2.1, s1.2 :: s2.2)

/-! ## Counting and concrete fixtures used by the theorems -/

/-- Number of pending entries for one (word, language) pair. -/
def countPendingFor (word language : String) (data : List Entry) : Nat :=
  (data.filter
    (fun e => e.word == word && e.language == language && e.status == "pending")).length

/-- A translation result whose Spanish field carries the `[offline]` error
marker (the example of the validation-gate specification). -/
def offlineTr : TransResult :=
  { original := "water", detected_lang := "en",
    en := "hello", es := "[offline] hola", hi := "नमस्ते" }

/-- A translation result that passes the validation gate. -/
def goodTr : TransResult :=
  { original := "dos", detected_lang := "es", en := "two", es := "dosx", hi := "दो" }

/-- A fresh pending entry, as `save_unvalidated_word` would create it. -/
def pendingEntry (w l ts : String) : Entry :=
  { word := w, language := l, context := "", timestamp := ts,
    is_offline := true, status := "pending" }

/-- Collaborator failing on "uno" and succeeding elsewhere. -/
def tMix : String → Except String TransResult :=
  fun w => if w == "uno" then .error "boom" else .ok goodTr

/-- Collaborator that always raises (network down). -/
def tFail : String → Except String TransResult := fun _ => .error "down"

/-- Collaborator that always succeeds with a gate-passing result. -/
def tOk : String → Except String TransResult := fun _ => .ok goodTr

/-- Two-entry batch: "uno" will fail, "dos" will succeed. -/
def batchSt : SyncState :=
  { pending := [pendingEntry "uno" "es" "t0", pendingEntry "dos" "es" "t0"],
    validatedFile := [], db := [] }

/-- One-entry store for the two-pass retry scenario. -/
def retrySt : SyncState :=
  { pending := [pendingEntry "uno" "es" "t0"], validatedFile := [], db := [] }

/-- A store whose only entry has an empty word. -/
def stEmptyWord : SyncState :=
  { pending := [{ word := "", language := "en", context := "", timestamp := "t0",
                  is_offline := true, status := "pending" }],
    validatedFile := [], db := [] }

/-- C5: `extract("The water is cold and nice", "en")` yields exactly the
candidates `water`, `cold`, `nice`: tokens are whitespace-split, stripped of
punctuation, lower-cased, and kept only if longer than 2 characters, purely
alphabetic, and in no configured language's stop-word set ("the", "and" are
English stop words; "is" is too short). -/
theorem extract_water_cold_nice :
    extractCandidates "The water is cold and nice" = ["water", "cold", "nice"] := by
  decide

/-! ## C1: pending-store insert idempotence -/

/-- C1 counterexample: with a pending ("water", "en") entry already in the
store, a second insert of the same pair is indeed a no-op — but it returns
`true`, not `false` as the claim states. -/
theorem save_dup_returns_true_not_false :
    hasPendingEntry "water" "en"
      (save_unvalidated_word "water" "en" "ctx" "t1" true []).1 = true ∧
    (save_unvalidated_word "water" "en" "ctx" "t2" true
      (save_unvalidated_word "water" "en" "ctx" "t1" true []).1).1 =
      (save_unvalidated_word "water" "en" "ctx" "t1" true []).1 ∧
    ¬ ((save_unvalidated_word "water" "en" "ctx" "t2" true
      (save_unvalidated_word "water" "en" "ctx" "t1" true []).1).2 = false) := by
  decide

/-- C1 (amended): inserting a (word, language) pair whose pending entry
already exists is a no-op returning `true` (not `false`), and two successive
inserts of the same pair starting from a store without that pair leave
exactly one pending entry for it. -/
theorem save_unvalidated_word_idempotent (w l c ts1 ts2 : String)
    (off1 off2 : Bool) (store : List Entry)
    (h : hasPendingEntry w l store = false) :
    save_unvalidated_word w l c ts2 off2
        (save_unvalidated_word w l c ts1 off1 store).1 =
      ((save_unvalidated_word w l c ts1 off1 store).1, true) ∧
    countPendingFor w l (save_unvalidated_word w l c ts1 off1 store).1 = 1 := by
  have hstep : (save_unvalidated_word w l c ts1 off1 store).1 =
      store ++ [{ word := w, language := l, context := c, timestamp := ts1,
                  is_offline := off1, status := "pending" }] := by
    simp [save_unvalidated_word, h]
  rw [hstep]
  have hdup : hasPendingEntry w l
      (store ++ [{ word := w, language := l, context := c, timestamp := ts1,
                   is_offline := off1, status := "pending" }]) = true := by
    simp [hasPendingEntry, List.any_append]
  constructor
  · simp [save_unvalidated_word, hdup]
  · have hnone : ∀ e ∈ store,
        ¬ (e.word == w && e.language == l && e.status == "pending") = true := by
      intro e he
      have := (List.any_eq_false.mp h) e he
      simpa [hasPendingEntry] using this
    simp [countPendingFor, List.filter_append, List.filter_eq_nil_iff.mpr hnone]

/-- C1 witness for `save_unvalidated_word_idempotent` at a concrete pair. -/
theorem save_unvalidated_word_idempotent_witness :
    save_unvalidated_word "agua" "es" "c" "t2" true
        (save_unvalidated_word "agua" "es" "c" "t1" true []).1 =
      ((save_unvalidated_word "agua" "es" "c" "t1" true []).1, true) ∧
    countPendingFor "agua" "es" (save_unvalidated_word "agua" "es" "c" "t1" true []).1 = 1 :=
  save_unvalidated_word_idempotent "agua" "es" "c" "t1" "t2" true true [] (by decide)

/-! ## C2: validation gate guards the upsert -/

/-- A translation text fails one of the gate's tests: it is empty or
whitespace-only, or its lower-casing contains an error marker. -/
def badText (t : String) : Prop :=
  (trimChars t.data).isEmpty = true ∨
  errorIndicators.any (fun m => containsSub m.data (lowerStr t).data) = true

theorem validText_false_of_bad (t : String) (h : badText t) : validText t = false := by
  rcases h with h | h <;> simp [validText, h]

/-- C2: an upsert whose `en`, `es` or `hi` translation is empty,
whitespace-only, or carries an error-marker substring (case-insensitively)
is rejected as a no-op: the validated store is returned unchanged with
`false`.  The witness instantiates this at the spec's example
(en "hello", es "[offline] hola", hi "नमस्ते"). -/
theorem upsert_rejects_invalid_translations (w l c : String) (t : TransResult)
    (db : List DbRecord) (h : badText t.en ∨ badText t.es ∨ badText t.hi) :
    save_to_database w l (some t) c db = (db, false) := by
  have hv : has_valid_translations (some t) = false := by
    rcases h with h | h | h <;>
      simp [has_valid_translations, validText_false_of_bad _ h]
  simp [save_to_database, hv]

/-- C2 witness: the example upsert with es = "[offline] hola" creates and
updates no record. -/
theorem upsert_rejects_invalid_translations_witness :
    save_to_database "water" "en" (some offlineTr) ""
        [{ word := "agua", language := "es", en := "x", es := "y", hi := "z",
           context := "", validated := true }] =
      ([{ word := "agua", language := "es", en := "x", es := "y", hi := "z",
          context := "", validated := true }], false) :=
  upsert_rejects_invalid_translations "water" "en" "" offlineTr _
    (Or.inr (Or.inl (Or.inr (by decide))))

/-! ## C3: a gate-failing translation is NOT requeued (code bug) -/

/-- C3: contrary to spec and claim, a pending entry whose translation call
succeeds but fails the validation gate is removed from the pending store and
appended to the validated file with status "validated" (count 1), while the
database upsert is silently skipped: `process_unvalidated` discards the
Boolean result of `_save_to_database`.  Evaluated at the spec's own example
translations (es carries "[offline]"). -/
theorem gate_failure_entry_still_marked_validated :
    process_unvalidated (fun _ => .ok offlineTr) "t1"
      { pending := [pendingEntry "water" "en" "t0"], validatedFile := [], db := [] } =
    { state := { pending := [],
                 validatedFile := [{ word := "water", language := "en", context := "",
                                     timestamp := "t0", is_offline := true,
                                     status := "validated",
                                     translations := some offlineTr,
                                     validated_at := "t1" }],
                 db := [] },
      count := 1,
      calls := ["water"] } := by
  decide

/-! ## C4: exceptions requeue the entry; the batch continues; retry works -/

theorem runEntries_requeues_failed (translate : String → Except String TransResult)
    (now msg : String) (e : Entry) :
    ∀ (l : List Entry) (db : List DbRecord), e ∈ l → e.word ≠ "" →
      translate e.word = .error msg → e ∈ (runEntries translate now db l).remaining := by
  intro l
  induction l with
  | nil => intro db hmem _ _; exact absurd hmem (List.not_mem_nil e)
  | cons a rest ih =>
    intro db hmem hw ht
    rcases List.mem_cons.mp hmem with rfl | htail
    · have ha : (e.word == "") = false := beq_eq_false_iff_ne.mpr hw
      simp [runEntries, ha, ht]
    · cases ha : (a.word == "") with
      | true =>
        simp only [runEntries, ha, if_true]
        exact ih db htail hw ht
      | false =>
        cases hx : translate a.word with
        | error m =>
          simp only [runEntries, ha, hx]
          exact List.mem_cons_of_mem a (ih db htail hw ht)
        | ok tr =>
          simp only [runEntries, ha, hx]
          exact ih _ htail hw ht

/-- C4: (1) every pending entry with a nonempty word whose translation call
raises stays in the pending store after the pass; (2) on the concrete batch
["uno" (raises), "dos" (succeeds)] the pass still processes "dos",
returning aggregate count 1 with "uno" requeued; (3) retry-on-failure: with
a collaborator that raises, a pass leaves the entry pending (count 0); a
second pass whose collaborator succeeds removes it from the pending store,
counts it, and lands it validated in the validated file. -/
theorem exception_requeues_and_next_pass_validates :
    (∀ (translate : String → Except String TransResult) (now : String)
       (st : SyncState) (e : Entry) (msg : String),
        e ∈ st.pending → e.status = "pending" → e.word ≠ "" →
        translate e.word = .error msg →
        e ∈ (process_unvalidated translate now st).state.pending) ∧
    ((process_unvalidated tMix "t1" batchSt).count = 1 ∧
     (process_unvalidated tMix "t1" batchSt).state.pending =
       [pendingEntry "uno" "es" "t0"] ∧
     (process_unvalidated tMix "t1" batchSt).state.validatedFile =
       [{ pendingEntry "dos" "es" "t0" with
            status := "validated", translations := some goodTr,
            validated_at := "t1" }]) ∧
    ((process_unvalidated tFail "t1" retrySt).state.pending =
       [pendingEntry "uno" "es" "t0"] ∧
     (process_unvalidated tFail "t1" retrySt).count = 0 ∧
     (process_unvalidated tOk "t2" (process_unvalidated tFail "t1" retrySt).state).state.pending
       = [] ∧
     (process_unvalidated tOk "t2" (process_unvalidated tFail "t1" retrySt).state).count = 1 ∧
     (process_unvalidated tOk "t2" (process_unvalidated tFail "t1" retrySt).state).state.validatedFile
       = [{ pendingEntry "uno" "es" "t0" with
              status := "validated", translations := some goodTr,
              validated_at := "t2" }]) := by
  refine ⟨?_, by decide, by decide⟩
  intro translate now st e msg hmem hst hw ht
  have hin : e ∈ get_unvalidated_words st.pending :=
    List.mem_filter.mpr ⟨hmem, by simp [hst]⟩
  cases hl : get_unvalidated_words st.pending with
  | nil => rw [hl] at hin; exact absurd hin (List.not_mem_nil e)
  | cons a as =>
    rw [hl] at hin
    simp only [process_unvalidated, hl, List.isEmpty_cons, if_false, Bool.false_eq_true]
    exact runEntries_requeues_failed translate now msg e (a :: as) st.db hin hw ht

/-- C4 witness for `exception_requeues_and_next_pass_validates` at the
concrete one-entry store and always-raising collaborator. -/
theorem exception_requeues_witness :
    pendingEntry "uno" "es" "t0" ∈
      (process_unvalidated tFail "t1" retrySt).state.pending :=
  exception_requeues_and_next_pass_validates.1 tFail "t1" retrySt
    (pendingEntry "uno" "es" "t0") "down" (by decide) (by decide) (by decide) rfl

/-! ## C6: empty-word entries are permanent failures -/

theorem updateFirstRow_keeps_other_words (w l : String) (tr : TransResult)
    (c : String) (hw : w ≠ "") :
    ∀ (db : List DbRecord) (r : DbRecord),
      r ∈ updateFirstRow w l tr c db → r.word = "" → r ∈ db := by
  intro db
  induction db with
  | nil => intro r hr _; simp [updateFirstRow] at hr
  | cons a rest ih =>
    intro r hr he
    cases ha : (a.word == w && a.language == l) with
    | true =>
      simp only [updateFirstRow, ha, if_true] at hr
      rcases List.mem_cons.mp hr with rfl | htail
      · exfalso
        have haw : a.word = w := by
          have := (Bool.and_eq_true _ _).mp ha
          exact beq_iff_eq.mp this.1
        simp only [] at he
        exact hw (by rw [← haw, he])
      · exact List.mem_cons_of_mem a htail
    | false =>
      simp only [updateFirstRow, ha, Bool.false_eq_true, if_false] at hr
      rcases List.mem_cons.mp hr with rfl | htail
      · exact List.mem_cons_self r rest
      · exact List.mem_cons_of_mem a (ih r htail he)

theorem save_to_database_keeps_empty_rows (w l : String)
    (tr : Option TransResult) (c : String) (hw : w ≠ "")
    (db : List DbRecord) (r : DbRecord)
    (hr : r ∈ (save_to_database w l tr c db).1) (he : r.word = "") : r ∈ db := by
  unfold save_to_database at hr
  split at hr
  · exact hr
  · cases tr with
    | none => exact hr
    | some t =>
      by_cases hrow : dbHasRow w l db = true
      · simp only [hrow, if_true] at hr
        exact updateFirstRow_keeps_other_words w l t c hw db r hr he
      · simp only [hrow, if_false] at hr
        rcases List.mem_append.mp hr with h | h
        · exact h
        · exfalso
          have : r = { word := w, language := l, en := t.en, es := t.es,
                       hi := t.hi, context := c, validated := true } := by
            simpa using h
          exact hw (by rw [← he, this])

theorem runEntries_calls_nonempty (translate : String → Except String TransResult)
    (now : String) :
    ∀ (l : List Entry) (db : List DbRecord) (w : String),
      w ∈ (runEntries translate now db l).calls → w ≠ "" := by
  intro l
  induction l with
  | nil => intro db w h; simp [runEntries] at h
  | cons e rest ih =>
    intro db w h
    cases hword : (e.word == "") with
    | true =>
      simp only [runEntries, hword, if_true] at h
      exact ih db w h
    | false =>
      have hne : e.word ≠ "" := by
        intro hcontra
        simp [hcontra] at hword
      cases hx : translate e.word with
      | error m =>
        simp only [runEntries, hword, hx] at h
        rcases List.mem_cons.mp h with rfl | htail
        · exact hne
        · exact ih db w htail
      | ok tr =>
        simp only [runEntries, hword, hx] at h
        rcases List.mem_cons.mp h with rfl | htail
        · exact hne
        · exact ih _ w htail

theorem runEntries_remaining_nonempty (translate : String → Except String TransResult)
    (now : String) :
    ∀ (l : List Entry) (db : List DbRecord) (x : Entry),
      x ∈ (runEntries translate now db l).remaining → x.word ≠ "" := by
  intro l
  induction l with
  | nil => intro db x h; simp [runEntries] at h
  | cons e rest ih =>
    intro db x h
    cases hword : (e.word == "") with
    | true =>
      simp only [runEntries, hword, if_true] at h
      exact ih db x h
    | false =>
      cases hx : translate e.word with
      | error m =>
        simp only [runEntries, hword, hx] at h
        rcases List.mem_cons.mp h with rfl | htail
        · intro hcontra; simp [hcontra] at hword
        · exact ih db x htail
      | ok tr =>
        simp only [runEntries, hword, hx] at h
        exact ih _ x h

theorem runEntries_processed_nonempty (translate : String → Except String TransResult)
    (now : String) :
    ∀ (l : List Entry) (db : List DbRecord) (x : Entry),
      x ∈ (runEntries translate now db l).processed → x.word ≠ "" := by
  intro l
  induction l with
  | nil => intro db x h; simp [runEntries] at h
  | cons e rest ih =>
    intro db x h
    cases hword : (e.word == "") with
    | true =>
      simp only [runEntries, hword, if_true] at h
      exact ih db x h
    | false =>
      cases hx : translate e.word with
      | error m =>
        simp only [runEntries, hword, hx] at h
        exact ih db x h
      | ok tr =>
        simp only [runEntries, hword, hx] at h
        rcases List.mem_cons.mp h with rfl | htail
        · intro hcontra
          have hew : e.word = "" := hcontra
          rw [hew] at hword; simp at hword
        · exact ih _ x htail

theorem runEntries_keeps_empty_rows (translate : String → Except String TransResult)
    (now : String) :
    ∀ (l : List Entry) (db : List DbRecord) (r : DbRecord),
      r ∈ (runEntries translate now db l).db → r.word = "" → r ∈ db := by
  intro l
  induction l with
  | nil => intro db r h _; simp [runEntries] at h; exact h
  | cons e rest ih =>
    intro db r h he
    cases hword : (e.word == "") with
    | true =>
      simp only [runEntries, hword, if_true] at h
      exact ih db r h he
    | false =>
      have hne : e.word ≠ "" := by
        intro hcontra; simp [hcontra] at hword
      cases hx : translate e.word with
      | error m =>
        simp only [runEntries, hword, hx] at h
        exact ih db r h he
      | ok tr =>
        simp only [runEntries, hword, hx] at h
        exact save_to_database_keeps_empty_rows e.word e.language (some tr) e.context
          hne db r (ih _ r h he) he

/-- C6: a pending entry with an empty word is a permanent failure: the pass
never hands the empty word to the translation collaborator (the call log
holds no empty word), the entry is not requeued (every entry left pending
afterwards has a nonempty word, so this one is gone), and no empty-word
record reaches the validated file or the database that was not already
there. -/
theorem empty_word_entry_dropped (translate : String → Except String TransResult)
    (now : String) (st : SyncState) (e : Entry)
    (hmem : e ∈ st.pending) (hst : e.status = "pending") (hw : e.word = "") :
    e ∉ (process_unvalidated translate now st).state.pending ∧
    "" ∉ (process_unvalidated translate now st).calls ∧
    (∀ x ∈ (process_unvalidated translate now st).state.validatedFile,
        x.word = "" → x ∈ st.validatedFile) ∧
    (∀ r ∈ (process_unvalidated translate now st).state.db,
        r.word = "" → r ∈ st.db) := by
  have hin : e ∈ get_unvalidated_words st.pending :=
    List.mem_filter.mpr ⟨hmem, by simp [hst]⟩
  cases hl : get_unvalidated_words st.pending with
  | nil => rw [hl] at hin; exact absurd hin (List.not_mem_nil e)
  | cons a as =>
    simp only [process_unvalidated, hl, List.isEmpty_cons, if_false, Bool.false_eq_true]
    refine ⟨?_, ?_, ?_, ?_⟩
    · intro hcontra
      exact runEntries_remaining_nonempty translate now (a :: as) st.db e hcontra hw
    · intro hcontra
      exact runEntries_calls_nonempty translate now (a :: as) st.db "" hcontra rfl
    · intro x hx he
      rcases List.mem_append.mp hx with h | h
      · exact h
      · exact absurd he (runEntries_processed_nonempty translate now (a :: as) st.db x h)
    · intro r hr he
      exact runEntries_keeps_empty_rows translate now (a :: as) st.db r hr he

/-- C6 witness for `empty_word_entry_dropped` at the concrete one-entry
store whose entry has an empty word. -/
theorem empty_word_entry_dropped_witness :
    ({ word := "", language := "en", context := "", timestamp := "t0",
       is_offline := true, status := "pending" } : Entry) ∉
      (process_unvalidated tOk "t1" stEmptyWord).state.pending ∧
    "" ∉ (process_unvalidated tOk "t1" stEmptyWord).calls ∧
    (∀ x ∈ (process_unvalidated tOk "t1" stEmptyWord).state.validatedFile,
        x.word = "" → x ∈ stEmptyWord.validatedFile) ∧
    (∀ r ∈ (process_unvalidated tOk "t1" stEmptyWord).state.db,
        r.word = "" → r ∈ stEmptyWord.db) :=
  empty_word_entry_dropped tOk "t1" stEmptyWord
    { word := "", language := "en", context := "", timestamp := "t0",
      is_offline := true, status := "pending" } (by decide) rfl rfl

/-! ## C7: corrupted persisted state self-heals to the empty collection -/

/-- C7: reading the persisted pending store when the file is missing,
unreadable, holds invalid JSON, or parses to something other than a list
yields the empty collection — the total function raises nothing — and a
subsequent enrichment pass over the empty store proceeds, returning 0 and
touching nothing. -/
theorem read_json_file_self_heals (o : FileReadOutcome)
    (h : o = .missing ∨ (∃ m, o = .unreadable m) ∨ (∃ m, o = .parseFailed m) ∨
         (∃ j, o = .parsed j ∧ ∀ xs, j ≠ Json.arr xs)) :
    read_json_file o = [] ∧
    (∀ (translate : String → Except String TransResult) (now : String)
       (vf : List Entry) (db : List DbRecord),
        process_unvalidated translate now
            { pending := [], validatedFile := vf, db := db } =
          { state := { pending := [], validatedFile := vf, db := db },
            count := 0, calls := [] }) := by
  constructor
  · rcases h with rfl | ⟨m, rfl⟩ | ⟨m, rfl⟩ | ⟨j, rfl, hj⟩
    · rfl
    · rfl
    · rfl
    · cases j with
      | arr xs => exact absurd rfl (hj xs)
      | null => rfl
      | bool b => rfl
      | num n => rfl
      | str s => rfl
      | obj fields => rfl
  · intro translate now vf db
    rfl

/-- C7 witness for `read_json_file_self_heals` at a parse failure. -/
theorem read_json_file_self_heals_witness :
    read_json_file (.parseFailed "invalid json") = [] ∧
    (∀ (translate : String → Except String TransResult) (now : String)
       (vf : List Entry) (db : List DbRecord),
        process_unvalidated translate now
            { pending := [], validatedFile := vf, db := db } =
          { state := { pending := [], validatedFile := vf, db := db },
            count := 0, calls := [] }) :=
  read_json_file_self_heals (.parseFailed "invalid json")
    (Or.inr (Or.inr (Or.inl ⟨"invalid json", rfl⟩)))

/-! ## C8: the connectivity probe is total -/

/-- C8: the probe returns `true` exactly on a successful connection and
`false` on any connection error or timeout; it is a total function on every
outcome of the socket call (both probes are the same code and agree). -/
theorem connectivity_probe_total (o : ConnOutcome) :
    (o = .ok → check_internet o = true) ∧
    (o ≠ .ok → check_internet o = false) ∧
    is_online o = check_internet o := by
  cases o <;> simp [check_internet, is_online]

/-- C8 witness for `connectivity_probe_total` at a timeout. -/
theorem connectivity_probe_total_witness :
    check_internet ConnOutcome.timedOut = false :=
  (connectivity_probe_total ConnOutcome.timedOut).2.1 (by decide)

/-! ## C9: the sync loop skips offline cycles and survives exceptions -/

/-- C9: in an offline cycle the pipeline is not invoked — the cycle's result
is the same for every pipeline, the state is untouched and the event is
`skippedOffline`; a pipeline exception is caught, producing a `ran (error _)`
event with the state kept; and over any schedule the loop reaches every
cycle (one event per scheduled cycle), so no exception terminates it. -/
theorem sync_loop_skips_offline_and_survives :
    (∀ (pipe : SyncState → Except String (SyncState × Nat)) (st : SyncState),
        syncCycle false pipe st = (st, .skippedOffline)) ∧
    (∀ (pipe : SyncState → Except String (SyncState × Nat)) (st : SyncState)
       (e : String), pipe st = .error e →
        syncCycle true pipe st = (st, .ran (.error e))) ∧
    (∀ (cycles : List (Bool × (SyncState → Except String (SyncState × Nat))))
       (st : SyncState), (syncLoop cycles st).2.length = cycles.length) := by
  refine ⟨fun pipe st => rfl, ?_, ?_⟩
  · intro pipe st e h
    simp [syncCycle, h]
  · intro cycles
    induction cycles with
    | nil => intro st; rfl
    | cons c rest ih =>
      intro st
      cases c with
      | mk probe pipe => simp [syncLoop, ih]

/-- C9 witness for `sync_loop_skips_offline_and_survives` at a pipeline that
raises. -/
theorem sync_loop_survives_witness :
    syncCycle true (fun _ => .error "boom")
        { pending := [], validatedFile := [], db := [] } =
      ({ pending := [], validatedFile := [], db := [] }, .ran (.error "boom")) :=
  sync_loop_skips_offline_and_survives.2.1 (fun _ => .error "boom")
    { pending := [], validatedFile := [], db := [] } "boom" rfl

/-! ## C10: the empty string short-circuits the translation service -/

/-- C10: `translate_to_all ""` returns the fixed record (original "",
detected language "unknown", all three translations empty) without invoking
the detection or translation collaborators: the call log is empty, for every
pair of collaborators. -/
theorem translate_to_all_empty_no_calls (detect : String → String)
    (transOne : String → String → String → Except String String) :
    translate_to_all detect transOne "" =
      ({ original := "", detected_lang := "unknown",
         en := "", es := "", hi := "" }, []) := by
  simp [translate_to_all]
